import Mathlib

/-!
Shallow embedding of `packages/composables/src/factories/createListingComposable.ts`.

The component is a listing/search reconciler: it merges default search
parameters, caller criteria and the router's query state into outgoing
requests, stores the results in two named slots (initial listing, applied
listing) and derives read-only views (elements, total, paging, filters,
sorting) from the current listing.

JavaScript values appearing in criteria objects, route queries and filter
maps are modelled by the inductive type `JValue` (numbers as `Int`, since
all claims are stated over integers).  Objects are association lists in
insertion order, which is the order `Object.keys` iterates and the order
object spreads preserve.  `undefined`/`null` are explicit values; a missing
field of the listing result is an `Option.none`.

The two store slots, the two loading flags and the router query form a
`ListingState`; each async operation of the composable becomes a pure
function from the injected search method's outcome and the prior state to
an `Except` outcome paired with the final state.  The un-awaited
`router.replace(...).catch(() => {})` of `search` is modelled by a
`replaceFails` parameter: on success the route query is replaced with the
criteria, on failure it is left unchanged, and in both cases the search
continues (the rejection is swallowed).
-/

namespace ListingModel

/-- JavaScript-like runtime value: `undefined`, `null`, booleans, integer
numbers, strings, arrays, and objects as insertion-ordered key/value lists. -/
inductive JValue where
  | undef
  | null
  | bool (b : Bool)
  | num (n : Int)
  | str (s : String)
  | arr (xs : List JValue)
  | obj (fields : List (String × JValue))

/-- A JavaScript object: an insertion-ordered association list. -/
abbrev JObj := List (String × JValue)

/-- Property lookup on an object: the first entry with the given key. -/
def lookupJ (k : String) : JObj → Option JValue
  | [] => none
  | (k1, v) :: rest => if k1 = k then some v else lookupJ k rest

/-- The keys of an object, in insertion order. -/
def keysJ (o : JObj) : List String := o.map Prod.fst

/-- JavaScript assignment `o[k] = v`: overwrite in place when the key exists,
append otherwise.  This is also the effect of a later entry in an object
spread. -/
def setKey : JObj → String → JValue → JObj
  | [], k, v => [(k, v)]
  | (k1, v1) :: rest, k, v =>
    if k1 = k then (k1, v) :: rest else (k1, v1) :: setKey rest k v

/-- JavaScript truthiness: `undefined`, `null`, `false`, `0` and `""` are
falsy; every other value (including empty arrays and empty objects) is
truthy. -/
def jsTruthy : JValue → Bool
  | JValue.undef => false
  | JValue.null => false
  | JValue.bool b => b
  | JValue.num n => n != 0
  | JValue.str s => s != ""
  | JValue.arr _ => true
  | JValue.obj _ => true

/-- Property access `v.k` on a truthy value: a field of an object, and
`undefined` on any non-object (numbers, strings, booleans and arrays have no
such own property). -/
def getField (v : JValue) (k : String) : JValue :=
  match v with
  | JValue.obj o => (lookupJ k o).getD JValue.undef
  | _ => JValue.undef

/-- Numeric view of a value, used to state concrete counterexamples without
deciding equality of whole `JValue` trees. -/
def asNum : JValue → Option Int
  | JValue.num n => some n
  | _ => none

/-!
Lodash `merge` (the `merge` import of the source file), on the value shapes
the composable passes to it: plain objects are merged recursively key by
key, arrays are merged recursively index by index (the documented lodash
behaviour, e.g. `merge({a:[1,2]},{a:[9]})` is `{a:[9,2]}`), a source value
of `undefined` does not overwrite an existing destination value, and every
other combination is overridden by the source value.  Destination keys keep
their position; keys only in the source are appended in source order, which
is lodash's in-place mutation order.
-/

mutual

/-- Merge of a source value (second argument) into a destination value. -/
def mergeVals : JValue → JValue → JValue
  | JValue.obj d, JValue.obj c => JValue.obj (mergeObj d c)
  | JValue.arr d, JValue.arr c => JValue.arr (mergeArr d c)
  | d, JValue.undef => d
  | _, c => c
termination_by d c => (sizeOf c, sizeOf d)

/-- Index-wise merge of a source array into a destination array. -/
def mergeArr : List JValue → List JValue → List JValue
  | ds, [] => ds
  | [], c :: cs => c :: cs
  | d :: ds, c :: cs => mergeVals d c :: mergeArr ds cs
termination_by ds cs => (sizeOf cs, sizeOf ds)

/-- Merge of a source object into a destination object, one source entry at
a time, in source order. -/
def mergeObj : JObj → JObj → JObj
  | d, [] => d
  | d, (k, cv) :: cs => mergeObj (mergeEntry d k cv) cs
termination_by d cs => (sizeOf cs, sizeOf d)

/-- Merge of one source entry into a destination object: merge into the
existing value when the key is present, append the entry otherwise. -/
def mergeEntry : JObj → String → JValue → JObj
  | [], k, cv => [(k, cv)]
  | (k1, dv) :: ds, k, cv =>
    if k1 = k then (k1, mergeVals dv cv) :: ds else (k1, dv) :: mergeEntry ds k cv
termination_by ds _ cv => (sizeOf cv, sizeOf ds)

end

/-- The criteria-build step of the composable:
`merge({}, searchDefaults, criteria)` (lines 92, 124 and 142 of the source).
Merging into a fresh empty object first is lodash's way of leaving both
inputs unmutated. -/
def buildCriteria (defaults criteria : JObj) : JObj :=
  mergeObj (mergeObj [] defaults) criteria

/-!
Spec-side merge.  `overwriteVals`/`overwriteObj` are modelled from the
spec's words, to be compared with the lodash merge above: "for each key
present in `criteria`, it overwrites the corresponding key in `defaults`
(recursively for nested objects); keys absent in `criteria` retain default
values".
-/

mutual

/-- Spec-worded merge of a source value into a destination value: nested
objects recurse, everything else is overwritten by the source. -/
def overwriteVals : JValue → JValue → JValue
  | JValue.obj d, JValue.obj c => JValue.obj (overwriteObj d c)
  | _, c => c
termination_by d c => (sizeOf c, sizeOf d)

/-- Spec-worded merge of a source object into a destination object. -/
def overwriteObj : JObj → JObj → JObj
  | d, [] => d
  | d, (k, cv) :: cs => overwriteObj (overwriteEntry d k cv) cs
termination_by d cs => (sizeOf cs, sizeOf d)

/-- Spec-worded merge of one source entry into a destination object. -/
def overwriteEntry : JObj → String → JValue → JObj
  | [], k, cv => [(k, cv)]
  | (k1, dv) :: ds, k, cv =>
    if k1 = k then (k1, overwriteVals dv cv) :: ds else (k1, dv) :: overwriteEntry ds k cv
termination_by ds _ cv => (sizeOf cv, sizeOf ds)

end

/-- Values containing no arrays and no `undefined` at any depth: on these
shapes the lodash merge and the spec-worded overwrite merge coincide. -/
inductive Plain : JValue → Prop where
  | null : Plain JValue.null
  | bool (b : Bool) : Plain (JValue.bool b)
  | num (n : Int) : Plain (JValue.num n)
  | str (s : String) : Plain (JValue.str s)
  | obj (o : JObj) (h : ∀ kv ∈ o, Plain kv.2) : Plain (JValue.obj o)

/-- An object all of whose values are `Plain`. -/
def PlainObj (o : JObj) : Prop := ∀ kv ∈ o, Plain kv.2

/-!
The listing result (`ProductListingResult`) and the component state.
Fields the source reads are modelled; `Option.none` is a missing (or
`undefined`/`null`) field.
-/

/-- A listing result as consumed by the composable.  Elements are opaque
`JValue`s (the factory is generic in the element type). -/
structure Listing where
  elements : Option (List JValue) := none
  total : Option Int := none
  page : Option Int := none
  limit : Option Int := none
  sorting : Option String := none
  sortings : Option JObj := none
  availableSortings : Option (List JValue) := none
  currentFilters : Option JObj := none
  aggregations : Option JValue := none

/-- The empty object `{}` read when a store slot is absent. -/
def emptyListing : Listing := {}

/-- State of one composable instance for its listing key: the two store
slots (`null`/absent modelled as `none`; every stored listing object is
truthy in JavaScript, so `Option` is a faithful model of the `||` and
`null` checks), the two loading flags and the router's current query. -/
structure ListingState where
  initialListing : Option Listing := none
  appliedListing : Option Listing := none
  loading : Bool := false
  loadingMore : Bool := false
  routeQuery : JObj := []

/-- `getInitialListings[listingKey] || {}` (line 72). -/
def getInitialListing (st : ListingState) : Listing :=
  st.initialListing.getD emptyListing

/-- `appliedListing.value || getInitialListing.value` (line 160). -/
def getCurrentListing (st : ListingState) : Listing :=
  st.appliedListing.getD (getInitialListing st)

/-- `getCurrentListing.value.elements || []` (line 164). -/
def getElements (st : ListingState) : List JValue :=
  (getCurrentListing st).elements.getD []

/-- `getCurrentListing.value.total || 0` (line 167). -/
def getTotal (st : ListingState) : Int :=
  (getCurrentListing st).total.getD 0

/-- JavaScript `a || b` on an optional number: `0` (and a missing value) is
falsy and falls through to `b`. -/
def jsOrNum (a : Option Int) (b : Int) : Int :=
  match a with
  | some n => if n = 0 then b else n
  | none => b

/-- `getCurrentListing.value.limit || searchDefaults?.limit || 10`
(line 170).  `searchDefaults` is the object later fed to the merge, so its
`limit` is read out of the same `JObj`. -/
def getLimit (defaults : JObj) (st : ListingState) : Int :=
  jsOrNum (getCurrentListing st).limit (jsOrNum ((lookupJ "limit" defaults).bind asNum) 10)

/-- `Math.ceil(a / b)` on integers, for a nonzero divisor (`Int.fdiv` is
floor division for either sign, and the ceiling is the negated floor of the
negated dividend).  For `b = 0` JavaScript would produce `Infinity`/`NaN`;
the model returns `0` there, a case `getLimit` never produces. -/
def jsCeilDiv (a b : Int) : Int := -(Int.fdiv (-a) b)

/-- `Math.ceil(getTotal.value / getLimit.value)` (lines 173-175). -/
def getTotalPagesCount (defaults : JObj) (st : ListingState) : Int :=
  jsCeilDiv (getTotal st) (getLimit defaults st)

/-- `getCurrentListing.value.availableSortings || Object.values(... .sortings || {})`
(lines 177-180).  An empty array of `availableSortings` is truthy and is
returned as is; only an absent field falls back to the legacy shape. -/
def getSortingOrders (st : ListingState) : List JValue :=
  match (getCurrentListing st).availableSortings with
  | some xs => xs
  | none => ((getCurrentListing st).sortings.getD []).map Prod.snd

/-- `getCurrentListing.value.sorting` (line 183). -/
def getCurrentSortingOrder (st : ListingState) : Option String :=
  (getCurrentListing st).sorting

/-- `getCurrentListing.value.page || 1` (line 193). -/
def getCurrentPage (st : ListingState) : Int :=
  match (getCurrentListing st).page with
  | some n => if n = 0 then 1 else n
  | none => 1

/-!
The async operations.  Each takes the injected `searchMethod` as a pure
function from the outgoing criteria to an `Except` outcome (a rejection
carries the thrown JavaScript value) and returns the operation's outcome
together with the final state.  The `try`/`finally` of the source is
captured by the loading flag being `false` in every final state.
-/

/-- A search method outcome: the injected `searchMethod` collaborator. -/
abbrev SearchMethod := JObj → Except JValue Listing

/-- `setInitialListing` (lines 74-77): commit the new initial listing and
clear the applied listing for this key. -/
def setInitialListing (L : Listing) (st : ListingState) : ListingState :=
  { st with initialListing := some L, appliedListing := none }

/-- `initSearch` (lines 87-102): set `loading`, build the criteria from the
defaults and the caller criteria, run the search, commit the result as the
initial listing; the flag is reset in the `finally`, and a rejection is
re-thrown unchanged. -/
def initSearch (sm : SearchMethod) (defaults criteria : JObj)
    (st : ListingState) : Except JValue Unit × ListingState :=
  match sm (buildCriteria defaults criteria) with
  | Except.ok result =>
    (Except.ok (), setInitialListing result { st with loading := false })
  | Except.error e => (Except.error e, { st with loading := false })

/-- `search` (lines 104-132): set `loading`; unless
`options?.preventRouteChange === true`, fire `router.replace` with the
criteria as the new query, swallowing a failed or cancelled replace
(`replaceFails`); build the criteria, run the search, commit the result as
the applied listing; the flag is reset in the `finally`, and a rejection of
`searchMethod` is re-thrown unchanged. -/
def search (sm : SearchMethod) (defaults criteria : JObj)
    (preventRouteChange replaceFails : Bool) (st : ListingState) :
    Except JValue Unit × ListingState :=
  let stRoute :=
    if !preventRouteChange && !replaceFails then { st with routeQuery := criteria } else st
  match sm (buildCriteria defaults criteria) with
  | Except.ok result =>
    (Except.ok (), { stRoute with appliedListing := some result, loading := false })
  | Except.error e => (Except.error e, { stRoute with loading := false })

/-- The JavaScript `TypeError` thrown by `[... , ...result.elements]` when
`result.elements` is `undefined` (line 149). -/
def typeErrorVal : JValue := JValue.str "TypeError: result.elements is not iterable"

/-- The query `loadMore` builds (lines 137-140): the current route query
with `p` set to `getCurrentPage.value + 1`. -/
def loadMoreQuery (st : ListingState) : JObj :=
  setKey st.routeQuery "p" (JValue.num (getCurrentPage st + 1))

/-- The criteria `loadMore` sends (line 142): the deep merge of the search
defaults with `loadMoreQuery`. -/
def loadMoreCriteria (defaults : JObj) (st : ListingState) : JObj :=
  buildCriteria defaults (loadMoreQuery st)

/-- `loadMore` (lines 134-157): set `loadingMore`, fetch the next page,
replace the applied listing with the prior current listing whose `page` is
the fetched page and whose `elements` are the prior elements (defaulting to
`[]`) followed by the fetched elements.  Spreading missing fetched elements
throws a `TypeError`; every error resets the flag and propagates. -/
def loadMore (sm : SearchMethod) (defaults : JObj) (st : ListingState) :
    Except JValue Unit × ListingState :=
  match sm (loadMoreCriteria defaults st) with
  | Except.error e => (Except.error e, { st with loadingMore := false })
  | Except.ok result =>
    match result.elements with
    | none => (Except.error typeErrorVal, { st with loadingMore := false })
    | some newElements =>
      let old := getCurrentListing st
      let appended : Listing :=
        { old with page := result.page,
                   elements := some (old.elements.getD [] ++ newElements) }
      (Except.ok (), { st with appliedListing := some appended, loadingMore := false })

/-- `changeCurrentSortingOrder` (lines 185-191): delegate to `search` with
the current route query extended by `order`; no options are passed, so the
route change is attempted. -/
def changeCurrentSortingOrder (sm : SearchMethod) (defaults : JObj)
    (replaceFails : Bool) (order : JValue) (st : ListingState) :
    Except JValue Unit × ListingState :=
  search sm defaults (setKey st.routeQuery "order" order) false replaceFails st

/-- `changeCurrentPage` (lines 194-200): delegate to `search` with the
current route query extended by `p: pageNumber || 1`. -/
def changeCurrentPage (sm : SearchMethod) (defaults : JObj)
    (replaceFails : Bool) (pageNumber : JValue) (st : ListingState) :
    Except JValue Unit × ListingState :=
  search sm defaults
    (setKey st.routeQuery "p" (if jsTruthy pageNumber then pageNumber else JValue.num 1))
    false replaceFails st

/-!
`getCurrentFilters` (lines 206-226): spread-merge the current listing's
filters with the route query, then walk the keys in order, dropping falsy
values and the keys `navigationId` and `p`, flattening a `price` object to
`min-price`/`max-price`, and passing every other key through.
-/

/-- Object spread `{...a, ...b}`: entries of `b` assigned over `a` in
order. -/
def spreadMerge (a b : JObj) : JObj :=
  b.foldl (fun acc kv => setKey acc kv.1 kv.2) a

/-- The merged filter map `{...getCurrentListing.value.currentFilters,
...router.currentRoute.query}` (lines 208-211). -/
def filtersMerged (st : ListingState) : JObj :=
  spreadMerge ((getCurrentListing st).currentFilters.getD []) st.routeQuery

/-- The `price` branch of the `forEach` body (lines 215-221): flatten a
truthy `min`/`max` component into `min-price`/`max-price`. -/
def priceStep (acc : JObj) (v : JValue) : JObj :=
  let acc1 :=
    if jsTruthy (getField v "min") then setKey acc "min-price" (getField v "min") else acc
  if jsTruthy (getField v "max") then setKey acc1 "max-price" (getField v "max") else acc1

/-- One iteration of the `Object.keys(...).forEach` body (lines 212-224). -/
def filtersStep (acc : JObj) (k : String) (v : JValue) : JObj :=
  if jsTruthy v = false then acc
  else if k = "navigationId" then acc
  else if k = "price" then priceStep acc v
  else if k = "p" then acc
  else setKey acc k v

/-- One pass of the `forEach` over a list of remaining entries, starting
from an accumulated result object. -/
def filtersFold (acc : JObj) (l : JObj) : JObj :=
  l.foldl (fun acc kv => filtersStep acc kv.1 kv.2) acc

/-- `getCurrentFilters` (lines 206-226). -/
def getCurrentFilters (st : ListingState) : JObj :=
  filtersFold [] (filtersMerged st)

/-!
Concrete instances used by the per-claim witnesses and counterexamples.
-/

/-- Search defaults used by the claim-1 instances. -/
def c1Defaults : JObj := [("limit", JValue.num 10)]

/-- State for claim 1 in which the navigation query's page (5) differs from
the current listing's page (2). -/
def c1State : ListingState :=
  { appliedListing := some { page := some 2 },
    routeQuery := [("p", JValue.num 5)] }

/-- A concrete successful search result for claim 2. -/
def c2Result : Listing :=
  { elements := some [JValue.str "a"], total := some 1, page := some 1 }

/-- A concrete prior listing for claim 3, with every modelled field set. -/
def c3Prior : Listing :=
  { elements := some [JValue.str "a"], total := some 3, page := some 1,
    limit := some 10, sorting := some "name-asc",
    currentFilters := some [("manufacturer", JValue.str "m1")] }

/-- A concrete fetched page for claim 3. -/
def c3New : Listing := { elements := some [JValue.str "b"], page := some 2 }

/-- A concrete state for claim 3 whose current listing is `c3Prior`. -/
def c3State : ListingState := { appliedListing := some c3Prior }

/-- A concrete rejection value for claim 4. -/
def c4Error : JValue := JValue.str "rejected"

/-- A concrete listing for claim 5. -/
def c5Listing : Listing := { total := some 7, page := some 2 }

/-- Claim-6 defaults: the documented lodash example showing index-wise
array merging, `{a: [1, 2]}`. -/
def c6Defaults : JObj := [("a", JValue.arr [JValue.num 1, JValue.num 2])]

/-- Claim-6 criteria `{a: [9]}`: lodash merges this into `{a: [1, 2]}` as
`{a: [9, 2]}`, not as `{a: [9]}`. -/
def c6Criteria : JObj := [("a", JValue.arr [JValue.num 9])]

/-- Length of the array stored under key `a`, a numeric observer used to
separate the two merge results of claim 6. -/
def c6ArrLenAt (o : JObj) : Nat :=
  match lookupJ "a" o with
  | some (JValue.arr xs) => xs.length
  | _ => 0

/-- Claim-6 witness inputs: nested plain objects, `{limit: 10, filter: {manufacturer: "m1"}}`. -/
def c6WitDefaults : JObj :=
  [("limit", JValue.num 10), ("filter", JValue.obj [("manufacturer", JValue.str "m1")])]

/-- Claim-6 witness criteria `{p: 2, filter: {price: 5}}`. -/
def c6WitCriteria : JObj :=
  [("p", JValue.num 2), ("filter", JValue.obj [("price", JValue.num 5)])]

/-- Claim-7 state: the merged filters hold a falsy `min-price: 0` together
with a `price: {min: 5}` object, so the price translation re-creates the
`min-price` key that the falsy rule alone would have dropped. -/
def c7State : ListingState :=
  { appliedListing := some
      { currentFilters := some
          [("min-price", JValue.num 0),
           ("price", JValue.obj [("min", JValue.num 5)])] } }

/-- Claim-7 witness state: filters from the listing and the query, with a
falsy value, a `navigationId`, a page marker, a price object and a plain
passthrough key. -/
def c7WitState : ListingState :=
  { appliedListing := some
      { currentFilters := some
          [("manufacturer", JValue.str "m1"),
           ("navigationId", JValue.str "nav1"),
           ("shipping-free", JValue.bool false)] },
    routeQuery :=
      [("p", JValue.num 3),
       ("price", JValue.obj [("min", JValue.num 5), ("max", JValue.num 20)])] }

/-- Claim-9 state with a nonempty navigation query. -/
def c9State : ListingState := { routeQuery := [("q", JValue.str "shoes")] }

/-- Claim-10 state: `total = 10` is a nonnegative integer and
`limit = -5` is a (truthy) integer, yet the page count is negative. -/
def c10State : ListingState :=
  { appliedListing := some { total := some 10, limit := some (-5) } }

/-- Claim-10 witness state, the spec's own example: `total = 25`,
`limit = 10`. -/
def c10WitState : ListingState :=
  { appliedListing := some { total := some 25, limit := some 10 } }

/-!
Association-list lemmas about `lookupJ`, `keysJ` and `setKey`.
-/

@[simp]
theorem keysJ_nil : keysJ [] = [] := rfl

@[simp]
theorem keysJ_cons (k : String) (v : JValue) (rest : JObj) :
    keysJ ((k, v) :: rest) = k :: keysJ rest := rfl

theorem keysJ_append (a b : JObj) : keysJ (a ++ b) = keysJ a ++ keysJ b := by
  simp [keysJ]

theorem lookupJ_setKey_self (o : JObj) (k : String) (v : JValue) :
    lookupJ k (setKey o k v) = some v := by
  induction o with
  | nil => simp [setKey, lookupJ]
  | cons kv rest ih =>
    obtain ⟨k1, v1⟩ := kv
    by_cases h : k1 = k
    · subst h; simp [setKey, lookupJ]
    · simp [setKey, lookupJ, h, ih]

theorem lookupJ_setKey_ne (o : JObj) (k k1 : String) (v : JValue) (h : k1 ≠ k) :
    lookupJ k1 (setKey o k v) = lookupJ k1 o := by
  induction o with
  | nil => simp [setKey, lookupJ, Ne.symm h]
  | cons kv rest ih =>
    obtain ⟨k2, v2⟩ := kv
    by_cases h2 : k2 = k
    · subst h2
      simp [setKey, lookupJ, Ne.symm h]
    · simp [setKey, lookupJ, h2, ih]

theorem mem_keysJ_setKey {m : String} (o : JObj) (k : String) (v : JValue) :
    m ∈ keysJ (setKey o k v) ↔ m = k ∨ m ∈ keysJ o := by
  induction o with
  | nil => simp [setKey]
  | cons kv rest ih =>
    obtain ⟨k1, v1⟩ := kv
    by_cases h : k1 = k
    · subst h; simp [setKey]
    · simp [setKey, h, ih]; tauto

theorem nodup_keysJ_setKey (o : JObj) (k : String) (v : JValue)
    (h : (keysJ o).Nodup) : (keysJ (setKey o k v)).Nodup := by
  induction o with
  | nil => simp [setKey]
  | cons kv rest ih =>
    obtain ⟨k1, v1⟩ := kv
    simp at h
    by_cases hk : k1 = k
    · subst hk; simpa [setKey] using h
    · simp only [setKey, if_neg hk, keysJ_cons, List.nodup_cons]
      refine ⟨?_, ih h.2⟩
      intro hmem
      rcases (mem_keysJ_setKey rest k v).mp hmem with hh | hh
      · exact hk hh
      · exact h.1 hh

theorem lookupJ_eq_none_of_not_mem {k : String} (o : JObj) (h : k ∉ keysJ o) :
    lookupJ k o = none := by
  induction o with
  | nil => simp [lookupJ]
  | cons kv rest ih =>
    obtain ⟨k1, v1⟩ := kv
    simp at h
    simp [lookupJ, Ne.symm h.1, ih h.2]

theorem mem_of_lookupJ {k : String} {v : JValue} (o : JObj)
    (h : lookupJ k o = some v) : (k, v) ∈ o := by
  induction o with
  | nil => simp [lookupJ] at h
  | cons kv rest ih =>
    obtain ⟨k1, v1⟩ := kv
    by_cases h1 : k1 = k
    · subst h1; simp [lookupJ] at h; simp [h]
    · simp [lookupJ, h1] at h
      simp [ih h]

theorem lookupJ_eq_of_mem_nodup {k : String} {v : JValue} (o : JObj)
    (hnd : (keysJ o).Nodup) (hm : (k, v) ∈ o) : lookupJ k o = some v := by
  induction o with
  | nil => simp at hm
  | cons kv rest ih =>
    obtain ⟨k1, v1⟩ := kv
    simp at hnd
    rcases List.mem_cons.mp hm with h | h
    · obtain ⟨h1, h2⟩ := Prod.mk.injEq .. ▸ h
      simp [lookupJ, h1.symm, h2]
    · have hk : k1 ≠ k := by
        intro hh; subst hh
        exact hnd.1 (by simpa [keysJ] using List.mem_map_of_mem Prod.fst h)
      simp [lookupJ, hk, ih hnd.2 h]

/-!
Lookup lemmas about the lodash merge.
-/

theorem mergeVals_num (dv : JValue) (n : Int) :
    mergeVals dv (JValue.num n) = JValue.num n := by
  cases dv <;> rw [mergeVals.eq_def]

theorem lookupJ_mergeEntry_ne (d : JObj) (k k1 : String) (cv : JValue)
    (h : k1 ≠ k) : lookupJ k1 (mergeEntry d k cv) = lookupJ k1 d := by
  induction d with
  | nil => simp [mergeEntry, lookupJ, Ne.symm h]
  | cons kv rest ih =>
    obtain ⟨k2, dv⟩ := kv
    by_cases h2 : k2 = k
    · subst h2
      simp [mergeEntry, lookupJ, Ne.symm h]
    · simp [mergeEntry, h2, lookupJ]
      by_cases h3 : k2 = k1 <;> simp [h3, ih]

theorem lookupJ_mergeEntry_self (d : JObj) (k : String) (cv : JValue) :
    lookupJ k (mergeEntry d k cv) =
      some (match lookupJ k d with
            | some dv => mergeVals dv cv
            | none => cv) := by
  induction d with
  | nil => simp [mergeEntry, lookupJ]
  | cons kv rest ih =>
    obtain ⟨k1, dv⟩ := kv
    by_cases h : k1 = k
    · subst h; simp [mergeEntry, lookupJ]
    · simp [mergeEntry, h, lookupJ, ih]

theorem lookupJ_mergeObj_notin (c : JObj) (d : JObj) (k : String)
    (h : k ∉ keysJ c) : lookupJ k (mergeObj d c) = lookupJ k d := by
  induction c generalizing d with
  | nil => rw [mergeObj]
  | cons kv cs ih =>
    obtain ⟨k1, cv⟩ := kv
    simp at h
    rw [mergeObj, ih _ h.2, lookupJ_mergeEntry_ne d k1 k cv h.1]

theorem lookupJ_mergeObj_nodup (c : JObj) (d : JObj) (k : String) (v : JValue)
    (hnd : (keysJ c).Nodup) (h : lookupJ k c = some v) :
    lookupJ k (mergeObj d c) =
      some (match lookupJ k d with
            | some dv => mergeVals dv v
            | none => v) := by
  induction c generalizing d with
  | nil => simp [lookupJ] at h
  | cons kv cs ih =>
    obtain ⟨k1, cv⟩ := kv
    simp at hnd
    rw [mergeObj]
    by_cases hk : k1 = k
    · subst hk
      simp [lookupJ] at h
      subst h
      rw [lookupJ_mergeObj_notin _ _ _ hnd.1, lookupJ_mergeEntry_self]
    · simp [lookupJ, hk] at h
      rw [ih _ hnd.2 h, lookupJ_mergeEntry_ne d k1 k cv (Ne.symm hk)]

/-!
Claim C1.
-/

/-- Claim C1 (amended): for every call of `loadMore()`, the page number
sent in the outgoing request is the current listing's page (defaulting to 1
when absent or 0) plus 1 — not the navigation query's page — and the
outgoing criteria are the deep merge of the search defaults with the
current navigation query extended by that incremented page key `p`. -/
theorem c1_loadMore_next_page (d : JObj) (st : ListingState)
    (h : (keysJ st.routeQuery).Nodup) :
    lookupJ "p" (loadMoreCriteria d st) = some (JValue.num (getCurrentPage st + 1)) := by
  unfold loadMoreCriteria buildCriteria loadMoreQuery
  rw [lookupJ_mergeObj_nodup
    (setKey st.routeQuery "p" (JValue.num (getCurrentPage st + 1)))
    (mergeObj [] d) "p" (JValue.num (getCurrentPage st + 1))
    (nodup_keysJ_setKey _ _ _ h)
    (lookupJ_setKey_self st.routeQuery "p" (JValue.num (getCurrentPage st + 1)))]
  cases lookupJ "p" (mergeObj [] d) <;> simp [mergeVals_num]

/-- Claim C1 counterexample: with navigation query page 5 but current
listing page 2, `loadMore` sends `p = 3` (listing page + 1), not `p = 6`
(query page + 1) as the claim states. -/
theorem c1_counterexample :
    (lookupJ "p" (loadMoreCriteria c1Defaults c1State)).bind asNum = some 3
    ∧ (lookupJ "p" c1State.routeQuery).bind asNum = some 5
    ∧ ((3 : Int) ≠ 5 + 1) := by
  refine ⟨?_, by simp [c1State, lookupJ, asNum], by decide⟩
  simp [loadMoreCriteria, buildCriteria, loadMoreQuery, c1Defaults, c1State,
    getCurrentPage, getCurrentListing, getInitialListing, setKey,
    mergeObj, mergeEntry, mergeVals, lookupJ, asNum]

/-- Claim C1 witness: the amended theorem applied to the concrete claim-1
state. -/
theorem c1_witness :
    (keysJ c1State.routeQuery).Nodup
    ∧ lookupJ "p" (loadMoreCriteria c1Defaults c1State)
        = some (JValue.num (getCurrentPage c1State + 1)) :=
  ⟨by simp [c1State, keysJ],
   c1_loadMore_next_page c1Defaults c1State (by simp [c1State, keysJ])⟩

/-!
Claim C2.
-/

/-- Claim C2: after `search(C)` resolves successfully, the current listing
equals the result returned by `searchMethod`, the loading flag is false,
and, unless `preventRouteChange` is true, the navigation query was replaced
with `C`; a failed or cancelled navigation replace (`rf = true`) is
swallowed and does not abort or fail the search. -/
theorem c2_search_commits_result (sm : SearchMethod) (d c : JObj)
    (prevent rf : Bool) (st : ListingState) (r : Listing)
    (h : sm (buildCriteria d c) = Except.ok r) :
    (search sm d c prevent rf st).1 = Except.ok ()
    ∧ getCurrentListing (search sm d c prevent rf st).2 = r
    ∧ (search sm d c prevent rf st).2.loading = false
    ∧ (prevent = false → rf = false → (search sm d c prevent rf st).2.routeQuery = c)
    ∧ (rf = true → (search sm d c prevent rf st).1 = Except.ok ()
        ∧ getCurrentListing (search sm d c prevent rf st).2 = r) := by
  cases prevent <;> cases rf <;>
    simp [search, h, getCurrentListing, getInitialListing]

/-- Claim C2 witness: the theorem applied to a concrete successful search. -/
theorem c2_witness :
    (search (fun _ => Except.ok c2Result) [] [("q", JValue.str "shoes")] false false {}).1
        = Except.ok ()
    ∧ getCurrentListing
        (search (fun _ => Except.ok c2Result) [] [("q", JValue.str "shoes")] false false {}).2
        = c2Result
    ∧ (search (fun _ => Except.ok c2Result) [] [("q", JValue.str "shoes")] false false {}).2.routeQuery
        = [("q", JValue.str "shoes")] := by
  have h := c2_search_commits_result (fun _ => Except.ok c2Result) []
    [("q", JValue.str "shoes")] false false {} c2Result rfl
  exact ⟨h.1, h.2.1, h.2.2.2.1 rfl rfl⟩

/-!
Claim C3.
-/

/-- Claim C3: after a successful `loadMore()`, the new current listing's
elements are the prior elements followed by the newly fetched elements, its
page is the fetched result's page, and every other field of the prior
current listing is unchanged. -/
theorem c3_loadMore_appends (sm : SearchMethod) (d : JObj) (st : ListingState)
    (r : Listing) (es : List JValue)
    (h : sm (loadMoreCriteria d st) = Except.ok r) (he : r.elements = some es) :
    (loadMore sm d st).1 = Except.ok ()
    ∧ getCurrentListing (loadMore sm d st).2 =
        { (getCurrentListing st) with
          page := r.page
          elements := some (getElements st ++ es) } := by
  simp [loadMore, h, he, getCurrentListing, getInitialListing, getElements]

/-- Claim C3 witness: the theorem applied to a concrete prior listing and
fetched page. -/
theorem c3_witness :
    (loadMore (fun _ => Except.ok c3New) [] c3State).1 = Except.ok ()
    ∧ getCurrentListing (loadMore (fun _ => Except.ok c3New) [] c3State).2 =
        { (getCurrentListing c3State) with
          page := c3New.page
          elements := some (getElements c3State ++ [JValue.str "b"]) } :=
  c3_loadMore_appends (fun _ => Except.ok c3New) [] c3State c3New
    [JValue.str "b"] rfl rfl

/-!
Claim C4.
-/

/-- Claim C4: whenever `searchMethod` rejects during `initSearch`, `search`
or `loadMore`, the corresponding loading flag is false afterwards, the
rejection propagates to the caller unchanged, and the stored initial and
applied listings are unchanged. -/
theorem c4_rejection_resets_flags (sm : SearchMethod) (d c : JObj)
    (prevent rf : Bool) (st : ListingState) (e : JValue) :
    (sm (buildCriteria d c) = Except.error e →
       initSearch sm d c st = (Except.error e, { st with loading := false })
       ∧ (search sm d c prevent rf st).1 = Except.error e
       ∧ (search sm d c prevent rf st).2.loading = false
       ∧ (search sm d c prevent rf st).2.initialListing = st.initialListing
       ∧ (search sm d c prevent rf st).2.appliedListing = st.appliedListing)
    ∧ (sm (loadMoreCriteria d st) = Except.error e →
       loadMore sm d st = (Except.error e, { st with loadingMore := false })) := by
  constructor
  · intro h
    refine ⟨by simp [initSearch, h], ?_, ?_, ?_, ?_⟩ <;>
      cases prevent <;> cases rf <;> simp [search, h]
  · intro h
    simp [loadMore, h]

/-- Claim C4 witness: the theorem applied to a search method that always
rejects with `c4Error`. -/
theorem c4_witness :
    initSearch (fun _ => Except.error c4Error) [] [] {}
        = (Except.error c4Error, ({} : ListingState))
    ∧ (search (fun _ => Except.error c4Error) [] [] false false {}).1 = Except.error c4Error
    ∧ loadMore (fun _ => Except.error c4Error) [] {}
        = (Except.error c4Error, ({} : ListingState)) := by
  have h := c4_rejection_resets_flags (fun _ => Except.error c4Error) [] []
    false false {} c4Error
  exact ⟨(h.1 rfl).1, (h.1 rfl).2.1, h.2 rfl⟩

/-!
Claim C5.
-/

/-- Claim C5: after `setInitialListing(L)` the applied listing is cleared
and the current listing equals `L`; whenever an applied listing is present
it takes precedence as the current listing, otherwise the current listing
is the initial listing. -/
theorem c5_applied_precedence (L : Listing) (st stA : ListingState) (a : Listing) :
    ((setInitialListing L st).appliedListing = none
      ∧ getCurrentListing (setInitialListing L st) = L)
    ∧ (stA.appliedListing = some a → getCurrentListing stA = a)
    ∧ (stA.appliedListing = none → getCurrentListing stA = getInitialListing stA) := by
  refine ⟨⟨rfl, by simp [getCurrentListing, setInitialListing, getInitialListing]⟩, ?_, ?_⟩
  · intro h; simp [getCurrentListing, h]
  · intro h; simp [getCurrentListing, h]

/-- Claim C5 witness: the theorem applied to a concrete listing and a state
with an applied listing present. -/
theorem c5_witness :
    ((setInitialListing c5Listing {}).appliedListing = none
      ∧ getCurrentListing (setInitialListing c5Listing {}) = c5Listing)
    ∧ getCurrentListing { appliedListing := some c5Listing } = c5Listing := by
  have h := c5_applied_precedence c5Listing {} { appliedListing := some c5Listing } c5Listing
  exact ⟨h.1, h.2.1 rfl⟩

/-!
Claim C8.
-/

/-- Claim C8 (amended): missing fields of external results are tolerated by
the derived views through default-value fallbacks (`elements` to `[]`,
`total` to `0`, `limit` through the defaults chain to `10`, sortings to
`[]`, `page` to `1`), and `initSearch`/`search` succeed whatever the shape
of the result; `loadMore` tolerates missing fields of the prior listing,
but it does require the fetched result's own `elements` to be present —
spreading a missing `elements` throws.  (The original claim, which also
asserted tolerance for the result consumed by `loadMore()`, is refuted by
the counterexample.) -/
theorem c8_missing_fields_tolerated (sm : SearchMethod) (d c : JObj)
    (st : ListingState) (r : Listing) (es : List JValue) :
    ((getCurrentListing st).elements = none → getElements st = [])
    ∧ ((getCurrentListing st).total = none → getTotal st = 0)
    ∧ ((getCurrentListing st).limit = none → lookupJ "limit" d = none → getLimit d st = 10)
    ∧ ((getCurrentListing st).availableSortings = none →
        (getCurrentListing st).sortings = none → getSortingOrders st = [])
    ∧ ((getCurrentListing st).page = none → getCurrentPage st = 1)
    ∧ (sm (buildCriteria d c) = Except.ok r →
        (initSearch sm d c st).1 = Except.ok ()
        ∧ (search sm d c false false st).1 = Except.ok ())
    ∧ (sm (loadMoreCriteria d st) = Except.ok r → r.elements = some es →
        (loadMore sm d st).1 = Except.ok ()) := by
  refine ⟨?_, ?_, ?_, ?_, ?_, ?_, ?_⟩
  · intro h; simp [getElements, h]
  · intro h; simp [getTotal, h]
  · intro h1 h2; simp [getLimit, jsOrNum, h1, h2]
  · intro h1 h2; simp [getSortingOrders, h1, h2]
  · intro h; simp [getCurrentPage, h]
  · intro h; exact ⟨by simp [initSearch, h], by simp [search, h]⟩
  · intro h he; simp [loadMore, h, he]

/-- Claim C8 counterexample: a fetched result with missing `elements`
(every field absent) makes `loadMore` raise the spread `TypeError` instead
of tolerating the absence. -/
theorem c8_counterexample :
    (loadMore (fun _ => Except.ok emptyListing) [] {}).1 = Except.error typeErrorVal := by
  simp [loadMore, emptyListing]

/-- Claim C8 witness: the amended theorem applied to the empty state and a
result carrying empty elements. -/
theorem c8_witness :
    getElements {} = []
    ∧ getTotal {} = 0
    ∧ getLimit [] {} = 10
    ∧ getSortingOrders {} = []
    ∧ getCurrentPage {} = 1
    ∧ (loadMore (fun _ => Except.ok ({ elements := some [] } : Listing)) [] {}).1
        = Except.ok () := by
  have h := c8_missing_fields_tolerated
    (fun _ => Except.ok ({ elements := some [] } : Listing)) [] [] {}
    { elements := some [] } []
  exact ⟨h.1 rfl, h.2.1 rfl, h.2.2.1 rfl rfl, h.2.2.2.1 rfl rfl,
    h.2.2.2.2.1 rfl, h.2.2.2.2.2.2 rfl rfl⟩

/-!
Claim C9.
-/

/-- Claim C9 (amended): `changeCurrentSortingOrder(order)` delegates to
`search` with the current navigation query extended by `order`, and
`changeCurrentPage(pageNumber)` delegates to `search` with the current
navigation query extended by `p: pageNumber || 1` — the JavaScript or,
which replaces every falsy page number (in particular `0`), not only
`undefined`, by 1 — with no other logic. -/
theorem c9_sugar_delegates (sm : SearchMethod) (d : JObj) (rf : Bool)
    (order pn : JValue) (st : ListingState) :
    changeCurrentSortingOrder sm d rf order st
        = search sm d (setKey st.routeQuery "order" order) false rf st
    ∧ (jsTruthy pn = true →
        changeCurrentPage sm d rf pn st
          = search sm d (setKey st.routeQuery "p" pn) false rf st)
    ∧ (jsTruthy pn = false →
        changeCurrentPage sm d rf pn st
          = search sm d (setKey st.routeQuery "p" (JValue.num 1)) false rf st) := by
  refine ⟨rfl, ?_, ?_⟩ <;> intro h <;> simp [changeCurrentPage, h]

/-- Claim C9 counterexample: `changeCurrentPage(0)` sends and stores page 1
(`0 || 1`), not page 0 as the claimed `pageNumber ?? 1` would. -/
theorem c9_counterexample :
    (lookupJ "p" ((changeCurrentPage (fun _ => Except.ok emptyListing) [] false
        (JValue.num 0) c9State).2.routeQuery)).bind asNum = some 1
    ∧ ((1 : Int) ≠ 0) := by
  constructor
  · simp [changeCurrentPage, search, jsTruthy, c9State, setKey, lookupJ, asNum]
  · decide

/-- Claim C9 witness: the amended theorem applied at an `undefined` page
number, which is falsy and becomes page 1. -/
theorem c9_witness :
    jsTruthy JValue.undef = false
    ∧ changeCurrentPage (fun _ => Except.ok emptyListing) [] false JValue.undef c9State
        = search (fun _ => Except.ok emptyListing) []
            (setKey c9State.routeQuery "p" (JValue.num 1)) false false c9State :=
  ⟨rfl, (c9_sugar_delegates (fun _ => Except.ok emptyListing) [] false
    JValue.undef JValue.undef c9State).2.2 rfl⟩

/-!
Claim C10.
-/

/-- Claim C10 (amended): `getLimit` always evaluates to a truthy, hence
nonzero, number — falling back to the literal 10 when both the listing's
limit and the configured default limit are absent or zero — so the division
in `getTotalPagesCount` is never a division by zero; and
`getTotalPagesCount` is a well-defined nonnegative integer whenever the
total is a nonnegative integer and the limit values are nonnegative
integers.  (For a negative — still truthy — stored limit the quotient is
negative, refuting the original claim's "natural number" over all
integers.) -/
theorem c10_pages_well_defined (d : JObj) (st : ListingState) :
    getLimit d st ≠ 0
    ∧ ((∀ n, (getCurrentListing st).limit = some n → 0 ≤ n) →
       (∀ n, (lookupJ "limit" d).bind asNum = some n → 0 ≤ n) →
       0 < getLimit d st)
    ∧ ((∀ n, (getCurrentListing st).total = some n → 0 ≤ n) → 0 ≤ getTotal st)
    ∧ (0 ≤ getTotal st → 0 < getLimit d st → 0 ≤ getTotalPagesCount d st) := by
  refine ⟨?_, ?_, ?_, ?_⟩
  · unfold getLimit jsOrNum
    rcases (getCurrentListing st).limit with _ | n <;>
      rcases (lookupJ "limit" d).bind asNum with _ | m <;>
      simp <;> split_ifs <;> omega
  · intro h1 h2
    unfold getLimit jsOrNum
    rcases hl : (getCurrentListing st).limit with _ | n <;>
      rcases hm : (lookupJ "limit" d).bind asNum with _ | m <;> simp <;> split_ifs
    all_goals
      first
      | omega
      | (have h6 := h2 _ hm; omega)
      | (have h6 := h1 _ hl; omega)
  · intro h
    unfold getTotal
    rcases ht : (getCurrentListing st).total with _ | n
    · simp
    · simpa using h _ ht
  · intro h1 h2
    unfold getTotalPagesCount jsCeilDiv
    rw [Int.fdiv_eq_ediv _ (le_of_lt h2)]
    rcases eq_or_lt_of_le h1 with h0 | h0
    · rw [← h0]; simp
    · have := @Int.ediv_neg' (-(getTotal st)) (getLimit d st) (by omega) h2
      omega

/-- Claim C10 counterexample: with `total = 10` (a nonnegative integer) and
stored `limit = -5` (an integer, truthy), `getTotalPagesCount` is `-2`,
which is not a natural number. -/
theorem c10_counterexample :
    getTotalPagesCount [] c10State = -2
    ∧ ¬(0 ≤ getTotalPagesCount [] c10State) := by
  constructor <;> decide

/-- Claim C10 witness: the amended theorem at the spec's own example
(`total = 25`, `limit = 10`), with every hypothesis discharged. -/
theorem c10_witness :
    getLimit [] c10WitState ≠ 0
    ∧ 0 ≤ getTotalPagesCount [] c10WitState := by
  have h := c10_pages_well_defined [] c10WitState
  refine ⟨h.1, h.2.2.2 (h.2.2.1 ?_) (h.2.1 ?_ ?_)⟩
  · intro n hn
    simp [c10WitState, getCurrentListing, getInitialListing] at hn
    omega
  · intro n hn
    simp [c10WitState, getCurrentListing, getInitialListing] at hn
    omega
  · intro n hn
    simp [lookupJ] at hn

/-!
Claim C6: first, reduction helpers for the two merges, then the
equivalence on array-free, undefined-free criteria, proved by the same
recursion that defines the merges.
-/

theorem mergeVals_null (dv : JValue) : mergeVals dv JValue.null = JValue.null := by
  cases dv <;> rw [mergeVals.eq_def]

theorem mergeVals_bool (dv : JValue) (b : Bool) :
    mergeVals dv (JValue.bool b) = JValue.bool b := by
  cases dv <;> rw [mergeVals.eq_def]

theorem mergeVals_str (dv : JValue) (s : String) :
    mergeVals dv (JValue.str s) = JValue.str s := by
  cases dv <;> rw [mergeVals.eq_def]

theorem mergeVals_obj_obj (d c : JObj) :
    mergeVals (JValue.obj d) (JValue.obj c) = JValue.obj (mergeObj d c) := by
  rw [mergeVals.eq_def]

theorem overwriteVals_null (dv : JValue) : overwriteVals dv JValue.null = JValue.null := by
  cases dv <;> rw [overwriteVals.eq_def]

theorem overwriteVals_bool (dv : JValue) (b : Bool) :
    overwriteVals dv (JValue.bool b) = JValue.bool b := by
  cases dv <;> rw [overwriteVals.eq_def]

theorem overwriteVals_num (dv : JValue) (n : Int) :
    overwriteVals dv (JValue.num n) = JValue.num n := by
  cases dv <;> rw [overwriteVals.eq_def]

theorem overwriteVals_str (dv : JValue) (s : String) :
    overwriteVals dv (JValue.str s) = JValue.str s := by
  cases dv <;> rw [overwriteVals.eq_def]

theorem overwriteVals_obj_obj (d c : JObj) :
    overwriteVals (JValue.obj d) (JValue.obj c) = JValue.obj (overwriteObj d c) := by
  rw [overwriteVals.eq_def]

mutual

theorem mergeVals_plain : (d c : JValue) → Plain c → mergeVals d c = overwriteVals d c
  | _, JValue.undef, h => nomatch h
  | _, JValue.arr _, h => nomatch h
  | _, JValue.null, _ => by rw [mergeVals_null, overwriteVals_null]
  | _, JValue.bool b, _ => by rw [mergeVals_bool, overwriteVals_bool]
  | _, JValue.num n, _ => by rw [mergeVals_num, overwriteVals_num]
  | _, JValue.str s, _ => by rw [mergeVals_str, overwriteVals_str]
  | JValue.obj d1, JValue.obj o, h => by
    rw [mergeVals_obj_obj, overwriteVals_obj_obj]
    have ho : ∀ kv ∈ o, Plain kv.2 := by cases h with | obj _ ho => exact ho
    exact congrArg JValue.obj (mergeObj_plain d1 o ho)
  | JValue.undef, JValue.obj o, _ => by rw [mergeVals.eq_def, overwriteVals.eq_def]
  | JValue.null, JValue.obj o, _ => by rw [mergeVals.eq_def, overwriteVals.eq_def]
  | JValue.bool b, JValue.obj o, _ => by rw [mergeVals.eq_def, overwriteVals.eq_def]
  | JValue.num n, JValue.obj o, _ => by rw [mergeVals.eq_def, overwriteVals.eq_def]
  | JValue.str s, JValue.obj o, _ => by rw [mergeVals.eq_def, overwriteVals.eq_def]
  | JValue.arr xs, JValue.obj o, _ => by rw [mergeVals.eq_def, overwriteVals.eq_def]
termination_by d c _ => (sizeOf c, sizeOf d)

theorem mergeObj_plain : (d c : JObj) → (∀ kv ∈ c, Plain kv.2) →
    mergeObj d c = overwriteObj d c
  | _, [], _ => by rw [mergeObj, overwriteObj]
  | d, (k, cv) :: cs, h => by
    rw [mergeObj, overwriteObj, mergeEntry_plain d k cv (h (k, cv) (by simp))]
    exact mergeObj_plain (overwriteEntry d k cv) cs (fun kv1 hm => h kv1 (by simp [hm]))
termination_by d c _ => (sizeOf c, sizeOf d)

theorem mergeEntry_plain : (d : JObj) → (k : String) → (cv : JValue) → Plain cv →
    mergeEntry d k cv = overwriteEntry d k cv
  | [], _, cv, _ => by rw [mergeEntry, overwriteEntry]
  | (k1, dv) :: ds, k, cv, h => by
    rw [mergeEntry, overwriteEntry]
    by_cases hk : k1 = k
    · simp only [if_pos hk]
      rw [mergeVals_plain dv cv h]
    · simp only [if_neg hk]
      rw [mergeEntry_plain ds k cv h]
termination_by d _ cv _ => (sizeOf cv, sizeOf d)

end

theorem mergeEntry_notin (d : JObj) (k : String) (cv : JValue)
    (h : k ∉ keysJ d) : mergeEntry d k cv = d ++ [(k, cv)] := by
  induction d with
  | nil => rw [mergeEntry]; rfl
  | cons kv ds ih =>
    obtain ⟨k1, dv⟩ := kv
    simp at h
    rw [mergeEntry]
    simp only [if_neg (Ne.symm h.1)]
    rw [ih h.2]
    rfl

theorem mergeObj_disjoint (c : JObj) : ∀ d : JObj, (keysJ c).Nodup →
    (∀ k, k ∈ keysJ c → k ∉ keysJ d) → mergeObj d c = d ++ c := by
  induction c with
  | nil => intro d _ _; rw [mergeObj]; simp
  | cons kv cs ih =>
    intro d hnd hdisj
    obtain ⟨k, cv⟩ := kv
    simp at hnd
    rw [mergeObj, mergeEntry_notin d k cv (hdisj k (by simp))]
    rw [ih (d ++ [(k, cv)]) hnd.2 ?hd]
    · simp
    case hd =>
      intro k1 hk1 hmem
      rw [keysJ_append] at hmem
      rcases List.mem_append.mp hmem with hm | hm
      · exact hdisj k1 (by simp [hk1]) hm
      · simp [keysJ] at hm
        subst hm
        exact hnd.1 hk1

theorem mergeObj_nil (d : JObj) (hnd : (keysJ d).Nodup) : mergeObj [] d = d := by
  have h := mergeObj_disjoint d [] hnd (by intro k _; simp [keysJ])
  simpa using h

/-- Claim C6 (amended): for all defaults `D` with distinct keys and
criteria `C` containing no arrays and no `undefined` values, the
criteria-build step `merge({}, D, C)` produces exactly `D` with every key
path present in `C` overwritten by `C`'s value, recursively for nested
objects, keys only in `D` keeping their default values (the spec-worded
`overwriteObj`); the model is pure, so neither input is mutated.  On array
values lodash instead merges index-wise, and an `undefined` value in `C`
does not overwrite an existing default — the counterexample exhibits the
array case. -/
theorem c6_build_is_overwrite (d c : JObj) (hc : PlainObj c)
    (hd : (keysJ d).Nodup) : buildCriteria d c = overwriteObj d c := by
  unfold buildCriteria
  rw [mergeObj_nil d hd]
  exact mergeObj_plain d c hc

/-- Claim C6 counterexample: lodash's own documented example shape —
`merge({a:[1,2]}, {a:[9]})` yields `{a:[9,2]}` (the array under `a` keeps
length 2), while the claim's key-path overwrite would yield `{a:[9]}`
(length 1). -/
theorem c6_counterexample :
    c6ArrLenAt (buildCriteria c6Defaults c6Criteria) = 2
    ∧ c6ArrLenAt (overwriteObj c6Defaults c6Criteria) = 1
    ∧ buildCriteria c6Defaults c6Criteria ≠ overwriteObj c6Defaults c6Criteria := by
  have e1 : c6ArrLenAt (buildCriteria c6Defaults c6Criteria) = 2 := by
    simp [c6ArrLenAt, buildCriteria, c6Defaults, c6Criteria, mergeObj,
      mergeEntry, mergeVals, mergeArr, lookupJ]
  have e2 : c6ArrLenAt (overwriteObj c6Defaults c6Criteria) = 1 := by
    simp [c6ArrLenAt, overwriteObj, overwriteEntry, overwriteVals,
      c6Defaults, c6Criteria, lookupJ]
  refine ⟨e1, e2, fun hEq => ?_⟩
  rw [hEq] at e1
  omega

/-- Claim C6 witness: the amended theorem applied to nested plain objects
(`{limit: 10, filter: {manufacturer: "m1"}}` merged with
`{p: 2, filter: {price: 5}}`). -/
theorem c6_witness :
    PlainObj c6WitCriteria
    ∧ (keysJ c6WitDefaults).Nodup
    ∧ buildCriteria c6WitDefaults c6WitCriteria
        = overwriteObj c6WitDefaults c6WitCriteria := by
  have hp : PlainObj c6WitCriteria := by
    intro kv hm
    simp [c6WitCriteria] at hm
    rcases hm with h | h <;> rw [h]
    · exact Plain.num 2
    · refine Plain.obj _ ?_
      intro kv1 hm1
      simp at hm1
      rw [hm1]
      exact Plain.num 5
  exact ⟨hp, by decide,
    c6_build_is_overwrite c6WitDefaults c6WitCriteria hp (by decide)⟩

/-!
Claim C7: lemmas about one `forEach` step, the whole fold, and the spread
merge, then the claim.
-/

@[simp]
theorem filtersFold_nil (acc : JObj) : filtersFold acc [] = acc := rfl

@[simp]
theorem filtersFold_cons (acc : JObj) (k1 : String) (v1 : JValue) (l : JObj) :
    filtersFold acc ((k1, v1) :: l) = filtersFold (filtersStep acc k1 v1) l := rfl

theorem lookupJ_priceStep_ne (acc : JObj) (v : JValue) (k : String)
    (h1 : k ≠ "min-price") (h2 : k ≠ "max-price") :
    lookupJ k (priceStep acc v) = lookupJ k acc := by
  unfold priceStep
  by_cases hmin : jsTruthy (getField v "min") = true <;>
    by_cases hmax : jsTruthy (getField v "max") = true <;>
    simp [hmin, hmax, lookupJ_setKey_ne _ _ _ _ h1, lookupJ_setKey_ne _ _ _ _ h2]

theorem lookupJ_priceStep_min (acc : JObj) (v : JValue) :
    lookupJ "min-price" (priceStep acc v) =
      (if jsTruthy (getField v "min") then some (getField v "min")
       else lookupJ "min-price" acc) := by
  unfold priceStep
  by_cases hmin : jsTruthy (getField v "min") = true <;>
    by_cases hmax : jsTruthy (getField v "max") = true <;>
    simp [hmin, hmax, lookupJ_setKey_self,
      lookupJ_setKey_ne _ "max-price" "min-price" _ (by decide)]

theorem lookupJ_priceStep_max (acc : JObj) (v : JValue) :
    lookupJ "max-price" (priceStep acc v) =
      (if jsTruthy (getField v "max") then some (getField v "max")
       else lookupJ "max-price" acc) := by
  unfold priceStep
  by_cases hmin : jsTruthy (getField v "min") = true <;>
    by_cases hmax : jsTruthy (getField v "max") = true <;>
    simp [hmin, hmax, lookupJ_setKey_self,
      lookupJ_setKey_ne _ "min-price" "max-price" _ (by decide)]

theorem lookupJ_filtersStep_ne (acc : JObj) (k1 : String) (v : JValue) (k : String)
    (h1 : k ≠ k1)
    (h2 : k = "min-price" ∨ k = "max-price" → k1 ≠ "price") :
    lookupJ k (filtersStep acc k1 v) = lookupJ k acc := by
  unfold filtersStep
  by_cases hf : jsTruthy v = false
  · rw [if_pos hf]
  · rw [if_neg hf]
    by_cases hnav : k1 = "navigationId"
    · rw [if_pos hnav]
    · rw [if_neg hnav]
      by_cases hprice : k1 = "price"
      · rw [if_pos hprice]
        exact lookupJ_priceStep_ne acc v k
          (fun he => h2 (Or.inl he) hprice) (fun he => h2 (Or.inr he) hprice)
      · rw [if_neg hprice]
        by_cases hp : k1 = "p"
        · rw [if_pos hp]
        · rw [if_neg hp]
          exact lookupJ_setKey_ne acc k1 k v h1

theorem keysJ_filtersStep_cases {m : String} (acc : JObj) (k1 : String) (v : JValue)
    (hm : m ∈ keysJ (filtersStep acc k1 v)) :
    (m = k1 ∧ k1 ≠ "navigationId" ∧ k1 ≠ "p")
      ∨ m = "min-price" ∨ m = "max-price" ∨ m ∈ keysJ acc := by
  unfold filtersStep at hm
  by_cases hf : jsTruthy v = false
  · rw [if_pos hf] at hm; tauto
  · rw [if_neg hf] at hm
    by_cases hnav : k1 = "navigationId"
    · rw [if_pos hnav] at hm; tauto
    · rw [if_neg hnav] at hm
      by_cases hprice : k1 = "price"
      · rw [if_pos hprice] at hm
        unfold priceStep at hm
        by_cases hmin : jsTruthy (getField v "min") = true <;>
          by_cases hmax : jsTruthy (getField v "max") = true <;>
          simp [hmin, hmax, mem_keysJ_setKey] at hm <;> tauto
      · rw [if_neg hprice] at hm
        by_cases hp : k1 = "p"
        · rw [if_pos hp] at hm; tauto
        · rw [if_neg hp] at hm
          rcases (mem_keysJ_setKey acc k1 v).mp hm with h | h <;> tauto

theorem nav_p_not_mem_filtersFold (m : String)
    (hm1 : m = "navigationId" ∨ m = "p") :
    ∀ (l acc : JObj), m ∉ keysJ acc → m ∉ keysJ (filtersFold acc l) := by
  intro l
  induction l with
  | nil => intro acc hacc; simpa using hacc
  | cons kv tl ih =>
    intro acc hacc
    obtain ⟨k1, v1⟩ := kv
    rw [filtersFold_cons]
    refine ih _ (fun hmem => ?_)
    rcases keysJ_filtersStep_cases acc k1 v1 hmem with ⟨he, hn, hp⟩ | h | h | h
    · rcases hm1 with hm | hm
      · exact hn (by rw [← he, hm])
      · exact hp (by rw [← he, hm])
    · rcases hm1 with hm | hm <;> rw [hm] at h <;> simp at h
    · rcases hm1 with hm | hm <;> rw [hm] at h <;> simp at h
    · exact hacc h

theorem filtersFold_lookup_skip (k : String) :
    ∀ (l acc : JObj), k ∉ keysJ l →
    (k = "min-price" ∨ k = "max-price" → "price" ∉ keysJ l) →
    lookupJ k (filtersFold acc l) = lookupJ k acc := by
  intro l
  induction l with
  | nil => intro acc _ _; rfl
  | cons kv tl ih =>
    intro acc hk hpr
    obtain ⟨k1, v1⟩ := kv
    simp only [keysJ_cons, List.mem_cons] at hk hpr
    rw [filtersFold_cons,
      ih _ (fun h => hk (Or.inr h)) (fun h hmem => hpr h (Or.inr hmem)),
      lookupJ_filtersStep_ne acc k1 v1 k (fun h => hk (Or.inl h))
        (fun h he => hpr h (Or.inl he.symm))]

theorem filtersFold_lookup_falsy (k : String)
    (h4 : k ≠ "min-price") (h5 : k ≠ "max-price") :
    ∀ (l acc : JObj),
    (∀ v, (k, v) ∈ l → jsTruthy v = false) →
    lookupJ k acc = none →
    lookupJ k (filtersFold acc l) = none := by
  intro l
  induction l with
  | nil => intro acc _ hacc; exact hacc
  | cons kv tl ih =>
    intro acc hall hacc
    obtain ⟨k1, v1⟩ := kv
    rw [filtersFold_cons]
    by_cases hk : k1 = k
    · subst hk
      have hf : jsTruthy v1 = false := hall v1 (by simp)
      have hstep : filtersStep acc k1 v1 = acc := by
        unfold filtersStep; rw [if_pos hf]
      rw [hstep]
      exact ih _ (fun v hv => hall v (by simp [hv])) hacc
    · refine ih _ (fun v hv => hall v (by simp [hv])) ?_
      rw [lookupJ_filtersStep_ne acc k1 v1 k (Ne.symm hk) (fun h => ?_), hacc]
      rcases h with h | h <;> subst h <;> intro he <;> subst he
      · exact h4 rfl
      · exact h5 rfl

theorem filtersFold_lookup_pass (k : String) (v : JValue)
    (h1 : k ≠ "navigationId") (h2 : k ≠ "p") (h3 : k ≠ "price")
    (h4 : k ≠ "min-price") (h5 : k ≠ "max-price") (ht : jsTruthy v = true) :
    ∀ (l acc : JObj), (keysJ l).Nodup → (k, v) ∈ l →
    lookupJ k (filtersFold acc l) = some v := by
  intro l
  induction l with
  | nil => intro acc _ hm; simp at hm
  | cons kv tl ih =>
    intro acc hnd hm
    obtain ⟨k1, v1⟩ := kv
    simp only [keysJ_cons, List.nodup_cons] at hnd
    rw [filtersFold_cons]
    rcases List.mem_cons.mp hm with he | he
    · obtain ⟨hek, hev⟩ := Prod.mk.injEq .. ▸ he
      subst hek; subst hev
      have hstep : filtersStep acc k v = setKey acc k v := by
        unfold filtersStep
        rw [if_neg (by simp [ht]), if_neg h1, if_neg h3, if_neg h2]
      rw [hstep,
        filtersFold_lookup_skip k tl _ hnd.1 (fun hh => absurd hh (by
          rcases hh with hh | hh
          · exact absurd hh h4
          · exact absurd hh h5)),
        lookupJ_setKey_self]
    · have hk1 : k1 ≠ k := by
        intro hh; subst hh
        exact hnd.1 (by simpa [keysJ] using List.mem_map_of_mem Prod.fst he)
      exact ih _ hnd.2 he

theorem filtersFold_lookup_price (pv : JValue) (ht : jsTruthy pv = true) :
    ∀ (l acc : JObj), (keysJ l).Nodup → ("price", pv) ∈ l →
    "min-price" ∉ keysJ l → "max-price" ∉ keysJ l →
    (lookupJ "min-price" (filtersFold acc l)
       = (if jsTruthy (getField pv "min") then some (getField pv "min")
          else lookupJ "min-price" acc))
    ∧ (lookupJ "max-price" (filtersFold acc l)
       = (if jsTruthy (getField pv "max") then some (getField pv "max")
          else lookupJ "max-price" acc)) := by
  intro l
  induction l with
  | nil => intro acc _ hm; simp at hm
  | cons kv tl ih =>
    intro acc hnd hm hmp hxp
    obtain ⟨k1, v1⟩ := kv
    simp only [keysJ_cons, List.nodup_cons, List.mem_cons] at hnd hmp hxp
    rw [filtersFold_cons]
    rcases List.mem_cons.mp hm with he | he
    · injection he with hek hev
      subst hek
      subst hev
      have hstep : filtersStep acc "price" pv = priceStep acc pv := by
        unfold filtersStep
        rw [if_neg (by simp [ht]), if_neg (by decide), if_pos rfl]
      constructor
      · rw [hstep,
          filtersFold_lookup_skip "min-price" tl _
            (fun h => hmp (Or.inr h)) (fun _ => hnd.1),
          lookupJ_priceStep_min]
      · rw [hstep,
          filtersFold_lookup_skip "max-price" tl _
            (fun h => hxp (Or.inr h)) (fun _ => hnd.1),
          lookupJ_priceStep_max]
    · have hk1 : k1 ≠ "price" := by
        intro hh; subst hh
        exact hnd.1 (by simpa [keysJ] using List.mem_map_of_mem Prod.fst he)
      have ihres := ih (filtersStep acc k1 v1) hnd.2 he
        (fun h => hmp (Or.inr h)) (fun h => hxp (Or.inr h))
      have hm1 : lookupJ "min-price" (filtersStep acc k1 v1) = lookupJ "min-price" acc :=
        lookupJ_filtersStep_ne acc k1 v1 "min-price"
          (fun h => hmp (Or.inl h)) (fun _ => hk1)
      have hm2 : lookupJ "max-price" (filtersStep acc k1 v1) = lookupJ "max-price" acc :=
        lookupJ_filtersStep_ne acc k1 v1 "max-price"
          (fun h => hxp (Or.inl h)) (fun _ => hk1)
      rw [hm1, hm2] at ihres
      exact ihres

theorem lookupJ_spreadMerge_notin (k : String) :
    ∀ (b a : JObj), k ∉ keysJ b → lookupJ k (spreadMerge a b) = lookupJ k a := by
  intro b
  induction b with
  | nil => intro a _; rfl
  | cons kv tl ih =>
    intro a hk
    obtain ⟨k1, v1⟩ := kv
    simp only [keysJ_cons, List.mem_cons] at hk
    have hcons : spreadMerge a ((k1, v1) :: tl) = spreadMerge (setKey a k1 v1) tl := rfl
    rw [hcons, ih _ (fun h => hk (Or.inr h)),
      lookupJ_setKey_ne a k1 k v1 (fun h => hk (Or.inl h))]

theorem lookupJ_spreadMerge_right (k : String) (v : JValue) :
    ∀ (b a : JObj), (keysJ b).Nodup → lookupJ k b = some v →
    lookupJ k (spreadMerge a b) = some v := by
  intro b
  induction b with
  | nil => intro a _ h; simp [lookupJ] at h
  | cons kv tl ih =>
    intro a hnd h
    obtain ⟨k1, v1⟩ := kv
    simp only [keysJ_cons, List.nodup_cons] at hnd
    have hcons : spreadMerge a ((k1, v1) :: tl) = spreadMerge (setKey a k1 v1) tl := rfl
    rw [hcons]
    by_cases hk : k1 = k
    · subst hk
      simp [lookupJ] at h
      subst h
      rw [lookupJ_spreadMerge_notin k1 tl _ hnd.1, lookupJ_setKey_self]
    · simp [lookupJ, hk] at h
      exact ih _ hnd.2 h

/-- Claim C7 (amended): `getCurrentFilters` never contains the keys
`navigationId` or `p`; navigation-query values override the listing's
`currentFilters` values; with distinct merged keys, every other key whose
merged value is falsy is omitted (except that `min-price`/`max-price` may
still be produced by the price translation, as the counterexample shows), a
truthy nested `price` object is flattened to `min-price`/`max-price` (each
component only when present and truthy, and describing the output exactly
when no competing `min-price`/`max-price` key is merged), and every key
other than `navigationId`, `p`, `price`, `min-price`, `max-price` with a
truthy merged value passes through unchanged. -/
theorem c7_current_filters (st : ListingState) :
    lookupJ "navigationId" (getCurrentFilters st) = none
    ∧ lookupJ "p" (getCurrentFilters st) = none
    ∧ ((keysJ (filtersMerged st)).Nodup →
        (∀ k v, k ≠ "min-price" → k ≠ "max-price" →
          lookupJ k (filtersMerged st) = some v → jsTruthy v = false →
          lookupJ k (getCurrentFilters st) = none)
        ∧ (∀ k v, k ≠ "navigationId" → k ≠ "p" → k ≠ "price" →
            k ≠ "min-price" → k ≠ "max-price" →
            lookupJ k (filtersMerged st) = some v → jsTruthy v = true →
            lookupJ k (getCurrentFilters st) = some v)
        ∧ (∀ pv, lookupJ "price" (filtersMerged st) = some pv → jsTruthy pv = true →
            "min-price" ∉ keysJ (filtersMerged st) →
            "max-price" ∉ keysJ (filtersMerged st) →
            lookupJ "min-price" (getCurrentFilters st)
              = (if jsTruthy (getField pv "min") then some (getField pv "min") else none)
            ∧ lookupJ "max-price" (getCurrentFilters st)
              = (if jsTruthy (getField pv "max") then some (getField pv "max") else none)))
    ∧ (∀ k v, (keysJ st.routeQuery).Nodup → lookupJ k st.routeQuery = some v →
        lookupJ k (filtersMerged st) = some v) := by
  refine ⟨?_, ?_, fun hnd => ⟨?_, ?_, ?_⟩, ?_⟩
  · exact lookupJ_eq_none_of_not_mem _
      (nav_p_not_mem_filtersFold "navigationId" (Or.inl rfl) (filtersMerged st) [] (by simp))
  · exact lookupJ_eq_none_of_not_mem _
      (nav_p_not_mem_filtersFold "p" (Or.inr rfl) (filtersMerged st) [] (by simp))
  · intro k v h4 h5 hl hf
    refine filtersFold_lookup_falsy k h4 h5 (filtersMerged st) [] ?_ rfl
    intro v1 hv1
    have hv := lookupJ_eq_of_mem_nodup _ hnd hv1
    rw [hl] at hv
    injection hv with hv
    exact hv ▸ hf
  · intro k v h1 h2 h3 h4 h5 hl ht
    exact filtersFold_lookup_pass k v h1 h2 h3 h4 h5 ht (filtersMerged st) []
      hnd (mem_of_lookupJ _ hl)
  · intro pv hl ht hmp hxp
    have h := filtersFold_lookup_price pv ht (filtersMerged st) [] hnd
      (mem_of_lookupJ _ hl) hmp hxp
    simpa [lookupJ] using h
  · intro k v hnd hl
    exact lookupJ_spreadMerge_right k v st.routeQuery _ hnd hl

/-- Claim C7 counterexample: with merged filters
`{min-price: 0, price: {min: 5}}`, the merged value of `min-price` is falsy
(`0`), yet the output contains `min-price: 5` — produced by the price
translation — so "omits every key whose merged value is falsy" fails as
stated. -/
theorem c7_counterexample :
    (lookupJ "min-price" (filtersMerged c7State)).bind asNum = some 0
    ∧ (lookupJ "min-price" (getCurrentFilters c7State)).bind asNum = some 5 := by
  constructor <;> decide

/-- Claim C7 witness: the amended theorem applied to a concrete state with
listing filters and a navigation query, every hypothesis discharged. -/
theorem c7_witness :
    lookupJ "navigationId" (getCurrentFilters c7WitState) = none
    ∧ lookupJ "p" (getCurrentFilters c7WitState) = none
    ∧ lookupJ "manufacturer" (getCurrentFilters c7WitState) = some (JValue.str "m1")
    ∧ lookupJ "min-price" (getCurrentFilters c7WitState)
        = (if jsTruthy (getField (JValue.obj
              [("min", JValue.num 5), ("max", JValue.num 20)]) "min")
           then some (getField (JValue.obj
              [("min", JValue.num 5), ("max", JValue.num 20)]) "min") else none) := by
  have h := c7_current_filters c7WitState
  have hnd : (keysJ (filtersMerged c7WitState)).Nodup := by decide
  refine ⟨h.1, h.2.1, ?_, ?_⟩
  · exact (h.2.2.1 hnd).2.1 "manufacturer" (JValue.str "m1")
      (by decide) (by decide) (by decide) (by decide) (by decide)
      rfl rfl
  · exact ((h.2.2.1 hnd).2.2 (JValue.obj [("min", JValue.num 5), ("max", JValue.num 20)])
      rfl rfl (by decide) (by decide)).1

end ListingModel
